import Mathlib

/-!
Verification development for the terraform-provider-ccloud repository.

Part 1 embeds the Limes quota polling fragment (`limesCCloudProjectQuotaV1GetQuota`
and `limesCCloudProjectQuotaV1WaitForProject`): the remote `projects.Get` call is
represented by its result (`Except GetErr ProjectReport`), a sequence of calls by a
stream `Nat → Except GetErr ProjectReport`, and `time.Duration` values by `Int`
nanoseconds.  The terraform-plugin-sdk polling primitive `WaitForStateContext`
(external library, not part of this repository) is modelled as a fuel-indexed loop
with the documented semantics: a refresh error aborts with that error, a nil result
counts against `NotFoundChecks`, a state in `Target` succeeds, and exhausted time
(fuel) yields a timeout error.

Part 2 embeds the billing masterdata helpers from
`sci/sci_billing_project_masterdata.go`.  Go `interface{}` values are represented
by the inductive `GoAny` / `GoVal`, `map[string]any` by an association list, and a
panicking type assertion `v.(bool)` by `Except String`.
-/

namespace CCloud

/-- A single service entry of a Limes project quota report: only the resource
list matters to the code under study (`len(service.Resources)`). -/
structure ServiceReport where
  Resources : List String
  deriving DecidableEq, Repr

/-- A Limes project quota report: the `Services` map, as an association list. -/
structure ProjectReport where
  Services : List (String × ServiceReport)
  deriving DecidableEq, Repr

/-- The error of the remote `projects.Get`: either a `gophercloud.ErrDefault404`
or any other error (carrying its rendered message). -/
inductive GetErr where
  | errDefault404
  | otherErr (msg : String)
  deriving DecidableEq, Repr

/-- The Go type switch `err.(gophercloud.ErrDefault404)`. -/
def GetErr.is404 : GetErr → Bool
  | .errDefault404 => true
  | .otherErr _ => false

/-- The `%v` rendering of the error used inside the formatted messages. -/
def GetErr.render : GetErr → String
  | .errDefault404 => "Resource not found"
  | .otherErr m => m

/-- The message `fmt.Sprintf("Unable to retrieve %s/%s ccloud_quota_project_v1: %v", domainID, projectID, err)`. -/
def unableMsg (domainID projectID : String) (e : GetErr) : String :=
  "Unable to retrieve " ++ domainID ++ "/" ++ projectID ++
    " ccloud_quota_project_v1: " ++ e.render

/-- The message `fmt.Sprintf("There are empty resources: %v", service.Resources)`
for an empty resource slice (`%v` of an empty slice prints `[]`). -/
def emptyResourcesMsg : String := "There are empty resources: []"

/-- The refresh closure returned by `limesCCloudProjectQuotaV1GetQuota`, as a pure
function of the remote `Get` result.  The triple is the Go
`(interface{}, string, error)`: result (`Option ProjectReport`), state string, and
error (`Option String`).  The loop over the `Services` map returns the pending
state as soon as some entry is a requested service with an empty resource list and
the timeout is positive; the outcome is order-independent, hence `List.any`. -/
def limesCCloudProjectQuotaV1GetQuota (domainID projectID : String)
    (services : List String) (timeout : Int)
    (getResult : Except GetErr ProjectReport) :
    Option ProjectReport × String × Option String :=
  match getResult with
  | .error err =>
    if err.is404 && decide (0 < timeout) then
      (none, unableMsg domainID projectID err, none)
    else
      (none, "", some (unableMsg domainID projectID err))
  | .ok quota =>
    if (quota.Services.any fun kv =>
          services.contains kv.1 && kv.2.Resources.length == 0) && decide (0 < timeout) then
      (none, emptyResourcesMsg, none)
    else
      (some quota, "active", none)

/-- The `resource.StateChangeConf` record configured by
`limesCCloudProjectQuotaV1WaitForProject` (fields used by the code). -/
structure StateChangeConf where
  Target : List String
  Refresh : Nat → Option ProjectReport × String × Option String
  Timeout : Int
  Delay : Int
  MinTimeout : Int
  NotFoundChecks : Nat

/-- `1 * time.Second` in `time.Duration` nanoseconds. -/
def oneSecond : Int := 1000000000

/-- The SDK timeout error message (modelled). -/
def timeoutErrMsg : String := "timeout while waiting for state to become active"

/-- The SDK error after more than `NotFoundChecks` consecutive nil results (modelled). -/
def notFoundErrMsg : String := "couldn't find resource"

/-- The SDK unexpected-state error (modelled; unreachable for this refresh). -/
def unexpectedStateMsg (s : String) : String := "unexpected state " ++ s

/-- Modelled from the documented semantics of the terraform-plugin-sdk
`StateChangeConf.WaitForStateContext` (external library, absent from this
repository): poll `Refresh` with call index `i`, counting consecutive nil results
in `nf`; a refresh error is returned as-is; a nil result past `NotFoundChecks`
fails; a non-nil result in `Target` succeeds; `fuel` polls exhaust the `Timeout`
budget, yielding the timeout error. -/
def waitForStateContext (conf : StateChangeConf) :
    Nat → Nat → Nat → Option ProjectReport × Option String
  | _, _, 0 => (none, some timeoutErrMsg)
  | i, nf, fuel + 1 =>
    match conf.Refresh i with
    | (_, _, some e) => (none, some e)
    | (none, _, none) =>
      if conf.NotFoundChecks < nf + 1 then (none, some notFoundErrMsg)
      else waitForStateContext conf (i + 1) (nf + 1) fuel
    | (some r, state, none) =>
      if conf.Target.contains state then (some r, none)
      else (none, some (unexpectedStateMsg state))

/-- The `StateChangeConf` literal built in `limesCCloudProjectQuotaV1WaitForProject`
when `timeout > 0`. -/
def limesWaitConf (domainID projectID : String) (services : List String)
    (timeout : Int) (gets : Nat → Except GetErr ProjectReport) : StateChangeConf :=
  { Target := ["active"]
    Refresh := fun i =>
      limesCCloudProjectQuotaV1GetQuota domainID projectID services timeout (gets i)
    Timeout := timeout
    Delay := oneSecond
    MinTimeout := oneSecond
    NotFoundChecks := 1000 }

/-- `limesCCloudProjectQuotaV1WaitForProject`: for a positive timeout it runs the
state-change wait on `limesWaitConf` (and `msg` stays empty, so only the wait error
is post-processed); otherwise it calls the refresh function once on the first
remote result and applies the `msg`/`err` post-processing.  The returned
`Option String` is the Go `error`. -/
def limesCCloudProjectQuotaV1WaitForProject (domainID projectID : String)
    (services : List String) (timeout : Int)
    (gets : Nat → Except GetErr ProjectReport) (fuel : Nat) : Option String :=
  if 0 < timeout then
    (waitForStateContext (limesWaitConf domainID projectID services timeout gets) 0 0 fuel).2
  else
    let r := limesCCloudProjectQuotaV1GetQuota domainID projectID services timeout (gets 0)
    let msg := r.2.1
    if 0 < msg.length ∧ msg ≠ "active" then some msg
    else r.2.2

/-- Stated from the claim's words (for comparison with the code): every service
named in the `QuotaRequest` has a non-empty resource list in the report's
`Services` map. -/
def quotaPopulatedForAll (services : List String) (quota : ProjectReport) : Prop :=
  ∀ s ∈ services, ∃ kv ∈ quota.Services, kv.1 = s ∧ kv.2.Resources ≠ []

instance (services : List String) (quota : ProjectReport) :
    Decidable (quotaPopulatedForAll services quota) := by
  unfold quotaPopulatedForAll
  infer_instance

end CCloud

namespace CCloud

theorem unableMsg_ne_empty (domainID projectID : String) (e : GetErr) :
    unableMsg domainID projectID e ≠ "" := by
  intro h
  have h2 := congrArg String.length h
  unfold unableMsg at h2
  rw [String.length_append, String.length_append, String.length_append,
    String.length_append, String.length_append] at h2
  have e1 : "Unable to retrieve ".length = 19 := rfl
  have e2 : "".length = 0 := rfl
  omega

theorem unableMsg_ne_active (domainID projectID : String) (e : GetErr) :
    unableMsg domainID projectID e ≠ "active" := by
  intro h
  have h2 := congrArg String.length h
  unfold unableMsg at h2
  rw [String.length_append, String.length_append, String.length_append,
    String.length_append, String.length_append] at h2
  have e1 : "Unable to retrieve ".length = 19 := rfl
  have e2 : "active".length = 6 := rfl
  omega

/-- C1, counterexample: with a positive timeout, a successfully retrieved report
whose `Services` map is empty produces the state "active", although the requested
service "compute" has no (non-empty) resource list in the map — refuting the
claimed "only if" direction. -/
theorem quotaActiveNotPopulated_cex :
    limesCCloudProjectQuotaV1GetQuota "d" "p" ["compute"] 1 (.ok ⟨[]⟩) =
      (some ⟨[]⟩, "active", none) ∧
    ¬ quotaPopulatedForAll ["compute"] ⟨[]⟩ := by
  constructor
  · rfl
  · decide

/-- C1, amended: for every successfully retrieved quota report, the refresh
returns the state "active" (with the report and no error) iff the timeout is not
positive, or every service entry present in the report's `Services` map that is
also named in the `QuotaRequest` has a non-empty resource list. -/
theorem quotaActive_iff_noEmptyRequested (domainID projectID : String)
    (services : List String) (timeout : Int) (quota : ProjectReport) :
    limesCCloudProjectQuotaV1GetQuota domainID projectID services timeout (.ok quota) =
      (some quota, "active", none) ↔
    (timeout ≤ 0 ∨ ∀ kv ∈ quota.Services, kv.1 ∈ services → kv.2.Resources ≠ []) := by
  simp only [limesCCloudProjectQuotaV1GetQuota]
  split
  next h =>
    simp only [Bool.and_eq_true, List.any_eq_true, decide_eq_true_eq] at h
    obtain ⟨⟨kv, hkv, hc⟩, ht⟩ := h
    simp only [Bool.and_eq_true, List.contains, List.elem_iff, beq_iff_eq,
      List.length_eq_zero] at hc
    constructor
    · intro hcontra
      exact absurd (congrArg (fun r => r.2.1) hcontra) (by simp [emptyResourcesMsg])
    · intro hcontra
      rcases hcontra with h1 | h2
      · omega
      · exact (h2 kv hkv hc.1 hc.2).elim
  next h =>
    simp only [Bool.and_eq_true, List.any_eq_true, decide_eq_true_eq,
      List.contains, List.elem_iff, beq_iff_eq, List.length_eq_zero,
      not_and, not_exists] at h
    constructor
    · intro _
      by_cases ht : (0:Int) < timeout
      · right
        intro kv hkv hmem hnil
        exact h ⟨kv, hkv, hmem, hnil⟩ ht
      · left; omega
    · intro _; rfl

end CCloud

namespace CCloud

/-- C2, counterexample: a successfully retrieved report containing a service
("dns") with an empty resource list, with positive timeout, nevertheless yields
the "active" result (not a pending state), because "dns" is not named in the
`QuotaRequest` (["compute"]). -/
theorem emptyUnrequestedService_active_cex :
    (∃ kv ∈ (ProjectReport.mk [("dns", ⟨[]⟩)]).Services, kv.2.Resources = []) ∧
    (0:Int) < 1 ∧
    limesCCloudProjectQuotaV1GetQuota "d" "p" ["compute"] 1 (.ok ⟨[("dns", ⟨[]⟩)]⟩) =
      (some ⟨[("dns", ⟨[]⟩)]⟩, "active", none) := by
  decide

/-- C2, amended: for every quota report retrieved without error, if the report
contains a service that is named in the `QuotaRequest` and whose resource list is
empty, and the timeout is positive, the refresh reports the retryable pending
state: nil result, the non-empty non-"active" empty-resources message, nil
error. -/
theorem emptyRequestedService_pending (domainID projectID : String)
    (services : List String) (timeout : Int) (quota : ProjectReport)
    (ht : 0 < timeout)
    (h : ∃ kv ∈ quota.Services, kv.1 ∈ services ∧ kv.2.Resources = []) :
    limesCCloudProjectQuotaV1GetQuota domainID projectID services timeout (.ok quota) =
      (none, emptyResourcesMsg, none) ∧
    emptyResourcesMsg ≠ "" ∧ emptyResourcesMsg ≠ "active" := by
  refine ⟨?_, by decide, by decide⟩
  simp only [limesCCloudProjectQuotaV1GetQuota]
  simp [ht]
  obtain ⟨kv, hkv, hmem, hnil⟩ := h
  exact ⟨kv.1, kv.2, by simpa using hkv, hmem, hnil⟩

theorem emptyRequestedService_pending_witness :
    limesCCloudProjectQuotaV1GetQuota "d" "p" ["compute"] 1 (.ok ⟨[("compute", ⟨[]⟩)]⟩) =
      (none, emptyResourcesMsg, none) :=
  (emptyRequestedService_pending "d" "p" ["compute"] 1 ⟨[("compute", ⟨[]⟩)]⟩
    (by decide) (by decide)).1

/-- C3: when the remote `Get` fails with a 404, a positive timeout turns the
failure into the retryable pending state (nil result, non-empty non-"active"
message, nil error), while a zero timeout converts the 404 into a returned error
(nil result, empty message, non-nil error). -/
theorem get404_timeout_behavior (domainID projectID : String) (services : List String)
    (timeout : Int) (e : GetErr) (h404 : e.is404 = true) :
    (0 < timeout →
      limesCCloudProjectQuotaV1GetQuota domainID projectID services timeout (.error e) =
        (none, unableMsg domainID projectID e, none) ∧
      unableMsg domainID projectID e ≠ "" ∧
      unableMsg domainID projectID e ≠ "active") ∧
    (timeout = 0 →
      limesCCloudProjectQuotaV1GetQuota domainID projectID services timeout (.error e) =
        (none, "", some (unableMsg domainID projectID e))) := by
  constructor
  · intro ht
    refine ⟨?_, unableMsg_ne_empty _ _ _, unableMsg_ne_active _ _ _⟩
    simp [limesCCloudProjectQuotaV1GetQuota, h404, ht]
  · intro ht
    subst ht
    simp [limesCCloudProjectQuotaV1GetQuota, h404]

theorem get404_timeout_behavior_witness :
    limesCCloudProjectQuotaV1GetQuota "d" "p" [] 1 (.error .errDefault404) =
      (none, unableMsg "d" "p" .errDefault404, none) ∧
    limesCCloudProjectQuotaV1GetQuota "d" "p" [] 0 (.error .errDefault404) =
      (none, "", some (unableMsg "d" "p" .errDefault404)) :=
  ⟨((get404_timeout_behavior "d" "p" [] 1 .errDefault404 rfl).1 (by decide)).1,
   (get404_timeout_behavior "d" "p" [] 0 .errDefault404 rfl).2 rfl⟩

end CCloud

namespace CCloud

/-- C4: a remote `Get` error other than a 404 is returned as a terminal failure by
the refresh function (nil result, empty message, non-nil error) for any timeout,
and `limesCCloudProjectQuotaV1WaitForProject` then returns that non-nil error. -/
theorem getOtherError_terminal (domainID projectID : String) (services : List String)
    (timeout : Int) (gets : Nat → Except GetErr ProjectReport) (fuel : Nat) (e : GetErr)
    (hget : gets 0 = .error e) (h404 : e.is404 = false) (hfuel : 0 < fuel) :
    limesCCloudProjectQuotaV1GetQuota domainID projectID services timeout (.error e) =
      (none, "", some (unableMsg domainID projectID e)) ∧
    limesCCloudProjectQuotaV1WaitForProject domainID projectID services timeout gets fuel =
      some (unableMsg domainID projectID e) := by
  have hrefresh : limesCCloudProjectQuotaV1GetQuota domainID projectID services timeout
      (.error e) = (none, "", some (unableMsg domainID projectID e)) := by
    simp [limesCCloudProjectQuotaV1GetQuota, h404]
  refine ⟨hrefresh, ?_⟩
  obtain ⟨n, rfl⟩ : ∃ n, fuel = n + 1 := ⟨fuel - 1, by omega⟩
  unfold limesCCloudProjectQuotaV1WaitForProject
  split
  · rw [waitForStateContext]
    simp [limesWaitConf, hget, hrefresh]
  · simp [hget, hrefresh]

theorem getOtherError_terminal_witness :
    limesCCloudProjectQuotaV1GetQuota "d" "p" [] 1 (.error (.otherErr "boom")) =
      (none, "", some (unableMsg "d" "p" (.otherErr "boom"))) ∧
    limesCCloudProjectQuotaV1WaitForProject "d" "p" [] 1
      (fun _ => .error (.otherErr "boom")) 3 =
      some (unableMsg "d" "p" (.otherErr "boom")) :=
  getOtherError_terminal "d" "p" [] 1 (fun _ => .error (.otherErr "boom")) 3
    (.otherErr "boom") rfl rfl (by decide)

/-- C5: every refresh invocation yields exactly one of three outcome shapes:
pending (nil value, non-empty non-"active" message, nil error), active (non-nil
report, message "active", nil error), or immediate error (nil value, empty
message, non-nil error). -/
theorem refresh_outcome_trichotomy (domainID projectID : String) (services : List String)
    (timeout : Int) (g : Except GetErr ProjectReport) :
    ((limesCCloudProjectQuotaV1GetQuota domainID projectID services timeout g).1 = none ∧
     (limesCCloudProjectQuotaV1GetQuota domainID projectID services timeout g).2.1 ≠ "" ∧
     (limesCCloudProjectQuotaV1GetQuota domainID projectID services timeout g).2.1 ≠ "active" ∧
     (limesCCloudProjectQuotaV1GetQuota domainID projectID services timeout g).2.2 = none) ∨
    (∃ q, (limesCCloudProjectQuotaV1GetQuota domainID projectID services timeout g).1 = some q ∧
     (limesCCloudProjectQuotaV1GetQuota domainID projectID services timeout g).2.1 = "active" ∧
     (limesCCloudProjectQuotaV1GetQuota domainID projectID services timeout g).2.2 = none) ∨
    ((limesCCloudProjectQuotaV1GetQuota domainID projectID services timeout g).1 = none ∧
     (limesCCloudProjectQuotaV1GetQuota domainID projectID services timeout g).2.1 = "" ∧
     (limesCCloudProjectQuotaV1GetQuota domainID projectID services timeout g).2.2 ≠ none) := by
  cases g with
  | error e =>
    by_cases hc : (e.is404 && decide (0 < timeout)) = true
    · have hr : limesCCloudProjectQuotaV1GetQuota domainID projectID services timeout
          (.error e) = (none, unableMsg domainID projectID e, none) := by
        simp only [limesCCloudProjectQuotaV1GetQuota, hc, if_true]
      left
      rw [hr]
      exact ⟨rfl, unableMsg_ne_empty _ _ _, unableMsg_ne_active _ _ _, rfl⟩
    · have hr : limesCCloudProjectQuotaV1GetQuota domainID projectID services timeout
          (.error e) = (none, "", some (unableMsg domainID projectID e)) := by
        simp only [limesCCloudProjectQuotaV1GetQuota, hc, if_false]
        simp [hc]
      right; right
      rw [hr]
      exact ⟨rfl, rfl, by simp⟩
  | ok quota =>
    by_cases hc : ((quota.Services.any fun kv =>
        services.contains kv.1 && kv.2.Resources.length == 0) && decide (0 < timeout)) = true
    · have hr : limesCCloudProjectQuotaV1GetQuota domainID projectID services timeout
          (.ok quota) = (none, emptyResourcesMsg, none) := by
        simp only [limesCCloudProjectQuotaV1GetQuota, hc, if_true]
      left
      rw [hr]
      exact ⟨rfl, by decide, by decide, rfl⟩
    · have hr : limesCCloudProjectQuotaV1GetQuota domainID projectID services timeout
          (.ok quota) = (some quota, "active", none) := by
        simp only [limesCCloudProjectQuotaV1GetQuota]
        rw [if_neg hc]
      right; left
      rw [hr]
      exact ⟨quota, rfl, rfl, rfl⟩

end CCloud

namespace CCloud

/-- C6: with a positive timeout, `limesCCloudProjectQuotaV1WaitForProject`
configures the state-change wait with target state "active", an initial delay of
one second, a minimum poll interval of one second and an overall timeout equal to
the given timeout, its refresh being the quota refresh function, and delegates to
the polling loop on that configuration. -/
theorem waitForProject_pollingConf (domainID projectID : String) (services : List String)
    (timeout : Int) (gets : Nat → Except GetErr ProjectReport) (fuel : Nat)
    (ht : 0 < timeout) :
    (limesWaitConf domainID projectID services timeout gets).Target = ["active"] ∧
    (limesWaitConf domainID projectID services timeout gets).Delay = oneSecond ∧
    (limesWaitConf domainID projectID services timeout gets).MinTimeout = oneSecond ∧
    (limesWaitConf domainID projectID services timeout gets).Timeout = timeout ∧
    (limesWaitConf domainID projectID services timeout gets).Refresh = (fun i =>
      limesCCloudProjectQuotaV1GetQuota domainID projectID services timeout (gets i)) ∧
    limesCCloudProjectQuotaV1WaitForProject domainID projectID services timeout gets fuel =
      (waitForStateContext (limesWaitConf domainID projectID services timeout gets)
        0 0 fuel).2 := by
  refine ⟨rfl, rfl, rfl, rfl, rfl, ?_⟩
  simp [limesCCloudProjectQuotaV1WaitForProject, ht]

theorem waitForProject_pollingConf_witness :
    (limesWaitConf "d" "p" [] 1 fun _ => .error .errDefault404).Delay = oneSecond ∧
    limesCCloudProjectQuotaV1WaitForProject "d" "p" [] 1
      (fun _ => .error .errDefault404) 2 =
      (waitForStateContext (limesWaitConf "d" "p" [] 1 fun _ => .error .errDefault404)
        0 0 2).2 :=
  ⟨(waitForProject_pollingConf "d" "p" [] 1 (fun _ => .error .errDefault404) 2
      (by decide)).2.1,
   (waitForProject_pollingConf "d" "p" [] 1 (fun _ => .error .errDefault404) 2
      (by decide)).2.2.2.2.2⟩

/-- C7: with a positive timeout, if every poll of the refresh function reports a
pending state (nil result and nil error, hence never "active"), the wait
terminates with a non-nil error for every poll budget. -/
theorem pendingForever_times_out (domainID projectID : String) (services : List String)
    (timeout : Int) (gets : Nat → Except GetErr ProjectReport) (fuel : Nat)
    (ht : 0 < timeout)
    (hpend : ∀ i,
      (limesCCloudProjectQuotaV1GetQuota domainID projectID services timeout (gets i)).1
        = none ∧
      (limesCCloudProjectQuotaV1GetQuota domainID projectID services timeout (gets i)).2.2
        = none) :
    ∃ m, limesCCloudProjectQuotaV1WaitForProject domainID projectID services timeout
      gets fuel = some m := by
  have key : ∀ fuel i nf, ∃ m,
      (waitForStateContext (limesWaitConf domainID projectID services timeout gets)
        i nf fuel).2 = some m := by
    intro fuel
    induction fuel with
    | zero => exact fun i nf => ⟨timeoutErrMsg, rfl⟩
    | succ n ih =>
      intro i nf
      rw [waitForStateContext]
      obtain ⟨h1, h2⟩ := hpend i
      rcases hG : limesCCloudProjectQuotaV1GetQuota domainID projectID services timeout
        (gets i) with ⟨a, b, c⟩
      rw [hG] at h1 h2
      simp only at h1 h2
      subst h1
      subst h2
      have hRefresh : (limesWaitConf domainID projectID services timeout gets).Refresh i
          = (none, b, none) := hG
      rw [hRefresh]
      by_cases hnf : (limesWaitConf domainID projectID services timeout gets).NotFoundChecks
          < nf + 1
      · exact ⟨notFoundErrMsg, by simp [hnf]⟩
      · simpa [hnf] using ih (i + 1) (nf + 1)
  have hw : limesCCloudProjectQuotaV1WaitForProject domainID projectID services timeout
      gets fuel =
      (waitForStateContext (limesWaitConf domainID projectID services timeout gets)
        0 0 fuel).2 := by
    simp [limesCCloudProjectQuotaV1WaitForProject, ht]
  rw [hw]
  exact key fuel 0 0

theorem pendingForever_times_out_witness :
    ∃ m, limesCCloudProjectQuotaV1WaitForProject "d" "p" [] 1
      (fun _ => .error .errDefault404) 3 = some m :=
  pendingForever_times_out "d" "p" [] 1 (fun _ => .error .errDefault404) 3 (by decide)
    (fun i => by simp [limesCCloudProjectQuotaV1GetQuota, GetErr.is404])

/-- C8: with a zero timeout, `limesCCloudProjectQuotaV1WaitForProject` performs a
single retrieval (its result depends only on the first remote response, for any
poll budget), and a successful retrieval returns nil even for reports in which
requested services have empty resource lists. -/
theorem zeroTimeout_singleGet (domainID projectID : String) (services : List String)
    (gets gets' : Nat → Except GetErr ProjectReport) (fuel fuel' : Nat)
    (h0 : gets 0 = gets' 0) :
    limesCCloudProjectQuotaV1WaitForProject domainID projectID services 0 gets fuel =
      limesCCloudProjectQuotaV1WaitForProject domainID projectID services 0 gets' fuel' ∧
    (∀ quota : ProjectReport, gets 0 = .ok quota →
      limesCCloudProjectQuotaV1WaitForProject domainID projectID services 0 gets fuel
        = none) := by
  constructor
  · simp [limesCCloudProjectQuotaV1WaitForProject, h0]
  · intro quota hq
    simp [limesCCloudProjectQuotaV1WaitForProject, hq, limesCCloudProjectQuotaV1GetQuota]

theorem zeroTimeout_singleGet_witness :
    limesCCloudProjectQuotaV1WaitForProject "d" "p" ["compute"] 0
      (fun _ => .ok ⟨[("compute", ⟨[]⟩)]⟩) 5 = none :=
  (zeroTimeout_singleGet "d" "p" ["compute"] (fun _ => .ok ⟨[("compute", ⟨[]⟩)]⟩)
    (fun _ => .ok ⟨[("compute", ⟨[]⟩)]⟩) 5 5 rfl).2 ⟨[("compute", ⟨[]⟩)]⟩ rfl

end CCloud

namespace SCI

/-- A Go value stored in a `map[string]any` block, as far as the billing helpers
inspect it: a bool, a string, or anything else. -/
inductive GoVal where
  | boolv (b : Bool)
  | strv (s : String)
  | otherv
  deriving DecidableEq, Repr

/-- A Go `map[string]any`, as an association list (keys unique in practice;
lookup takes the first match). -/
abbrev GoMap := List (String × GoVal)

/-- Map lookup: `v, ok := m[k]`. -/
def mLookup (m : GoMap) (k : String) : Option GoVal :=
  (m.find? fun kv => kv.1 == k).map fun kv => kv.2

/-- A Go `any` as received by the expand helpers: nil, a `[]any`, a
`map[string]any`, or anything else. -/
inductive GoAny where
  | nilv
  | listv (xs : List GoAny)
  | mapv (m : GoMap)
  | otherv
  deriving Repr

/-- `projects.CostObject` (the fields used by the helpers); the Go field `Type`
is spelled `Typ` because `Type` is reserved in Lean. -/
structure CostObject where
  Name : String := ""
  Typ : String := ""
  Inherited : Bool := false
  deriving DecidableEq, Repr

/-- A panicking Go type assertion `v.(bool)`. -/
def asBool : GoVal → Except String Bool
  | .boolv b => .ok b
  | _ => .error "interface conversion"

/-- A panicking Go type assertion `v.(string)`. -/
def asString : GoVal → Except String String
  | .strv s => .ok s
  | _ => .error "interface conversion"

/-- The body of `billingProjectExpandCostObject` for the first map element: set
`Inherited` from the "inherited" key if present, and copy "name"/"type" only when
`Inherited` ended up false.  `Except` carries a Go panic. -/
def expandCostObjectMap (m : GoMap) : Except String CostObject := do
  let inh : Bool ←
    match mLookup m "inherited" with
    | some v => asBool v
    | none => pure false
  if inh then
    return { Inherited := inh }
  else
    let name : String ←
      match mLookup m "name" with
      | some v => asString v
      | none => pure ""
    let typ : String ←
      match mLookup m "type" with
      | some v => asString v
      | none => pure ""
    return { Inherited := inh, Name := name, Typ := typ }

/-- The loop of `billingProjectExpandCostObject`: skip non-map elements, process
the first map element and return. -/
def expandCostObjectLoop : List GoAny → Except String CostObject
  | [] => .ok {}
  | .mapv m :: _ => expandCostObjectMap m
  | _ :: rest => expandCostObjectLoop rest

/-- `billingProjectExpandCostObject`: a nil or non-`[]any` input yields the zero
`CostObject`; otherwise the first map element of the list is expanded. -/
def billingProjectExpandCostObject (raw : GoAny) : Except String CostObject :=
  match raw with
  | .listv xs => expandCostObjectLoop xs
  | _ => .ok {}

/-- The first `map[string]any` element of a `[]any` (the element the loop in
`billingProjectExpandCostObject` processes). -/
def firstMap : List GoAny → Option GoMap
  | [] => none
  | .mapv m :: _ => some m
  | _ :: rest => firstMap rest

/-- `projects.ExtCertification` (the fields used by the helpers). -/
structure ExtCertification where
  C5 : Bool := false
  ISO : Bool := false
  PCI : Bool := false
  SOC1 : Bool := false
  SOC2 : Bool := false
  SOX : Bool := false
  deriving DecidableEq, Repr

/-- The comma-ok assertion pattern `if v, ok := m[k].(bool); ok`: the value when
the key holds a bool, and the zero value otherwise. -/
def boolAt (m : GoMap) (k : String) : Bool :=
  match mLookup m k with
  | some (.boolv b) => b
  | _ => false

/-- The map-element body of `billingProjectExpandExtCertificationV1`: each field
is set from its key via a comma-ok bool assertion; note the upper-case "SOX"
key. -/
def expandExtCertMap (m : GoMap) : ExtCertification :=
  { C5 := boolAt m "c5"
    ISO := boolAt m "iso"
    PCI := boolAt m "pci"
    SOC1 := boolAt m "soc1"
    SOC2 := boolAt m "soc2"
    SOX := boolAt m "SOX" }

/-- `billingProjectExpandExtCertificationV1`: nil unless the input is a `[]any`
whose first element is a `map[string]any`, in which case that map is expanded. -/
def billingProjectExpandExtCertificationV1 (raw : GoAny) : Option ExtCertification :=
  match raw with
  | .listv (.mapv m :: _) => some (expandExtCertMap m)
  | _ => none

/-- `billingProjectFlattenExtCertificationV1` on a non-nil `*ExtCertification`:
the single-element list of the flat map; note the lower-case "sox" key. -/
def billingProjectFlattenExtCertificationV1 (e : ExtCertification) : List GoMap :=
  [[("c5", .boolv e.C5), ("iso", .boolv e.ISO), ("pci", .boolv e.PCI),
    ("soc1", .boolv e.SOC1), ("soc2", .boolv e.SOC2), ("sox", .boolv e.SOX)]]

end SCI

namespace SCI

theorem expandCostObjectLoop_firstMap (m : GoMap) :
    ∀ ys, firstMap ys = some m → expandCostObjectLoop ys = expandCostObjectMap m := by
  intro ys
  induction ys with
  | nil => intro h; simp [firstMap] at h
  | cons x rest ih =>
    intro h
    cases x with
    | mapv m2 =>
      simp only [firstMap, Option.some.injEq] at h
      subst h
      rfl
    | nilv => exact ih (by simpa [firstMap] using h)
    | listv xs2 => exact ih (by simpa [firstMap] using h)
    | otherv => exact ih (by simpa [firstMap] using h)

/-- C9: when the first map element of the input list sets "inherited" to `true`,
`billingProjectExpandCostObject` returns a `CostObject` with `Inherited = true`
and empty `Name`/`Typ`, ignoring "name" and "type" values present in the input;
those values are copied exactly when "inherited" is absent or `false`. -/
theorem expandCostObject_inheritedDropsNameType (xs : List GoAny) (m : GoMap)
    (n t : String) (hm : firstMap xs = some m)
    (hn : mLookup m "name" = some (.strv n))
    (ht : mLookup m "type" = some (.strv t)) :
    (mLookup m "inherited" = some (.boolv true) →
      billingProjectExpandCostObject (.listv xs) =
        .ok { Inherited := true, Name := "", Typ := "" }) ∧
    ((mLookup m "inherited" = some (.boolv false) ∨ mLookup m "inherited" = none) →
      billingProjectExpandCostObject (.listv xs) =
        .ok { Inherited := false, Name := n, Typ := t }) := by
  have hred : billingProjectExpandCostObject (.listv xs) = expandCostObjectMap m := by
    show expandCostObjectLoop xs = expandCostObjectMap m
    exact expandCostObjectLoop_firstMap m xs hm
  constructor
  · intro hinh
    rw [hred]
    simp only [expandCostObjectMap, hinh, asBool]
    rfl
  · intro hinh
    rw [hred]
    rcases hinh with h | h
    · simp only [expandCostObjectMap, h, asBool, hn, ht, asString]
      rfl
    · simp only [expandCostObjectMap, h, asBool, hn, ht, asString]
      rfl

theorem expandCostObject_inheritedDropsNameType_witness :
    billingProjectExpandCostObject
      (.listv [.mapv [("inherited", .boolv true), ("name", .strv "x"), ("type", .strv "y")]]) =
      .ok { Inherited := true, Name := "", Typ := "" } :=
  (expandCostObject_inheritedDropsNameType
    [.mapv [("inherited", .boolv true), ("name", .strv "x"), ("type", .strv "y")]]
    [("inherited", .boolv true), ("name", .strv "x"), ("type", .strv "y")]
    "x" "y" rfl rfl rfl).1 rfl

/-- C10: flattening an `ExtCertification` and expanding the result agrees with the
original on `C5`, `ISO`, `PCI`, `SOC1` and `SOC2` but always has `SOX = false`
(flatten writes the key "sox" while expand reads "SOX"); the round trip is the
identity exactly when `SOX = false`. -/
theorem extCertification_roundTrip_dropsSOX (e : ExtCertification) :
    billingProjectExpandExtCertificationV1
      (.listv ((billingProjectFlattenExtCertificationV1 e).map .mapv)) =
      some { e with SOX := false } ∧
    (billingProjectExpandExtCertificationV1
      (.listv ((billingProjectFlattenExtCertificationV1 e).map .mapv)) =
      some e ↔ e.SOX = false) := by
  obtain ⟨c5, iso, pci, s1, s2, sox⟩ := e
  have main : billingProjectExpandExtCertificationV1
      (.listv ((billingProjectFlattenExtCertificationV1
        ⟨c5, iso, pci, s1, s2, sox⟩).map .mapv)) =
      some ⟨c5, iso, pci, s1, s2, false⟩ := rfl
  refine ⟨main, ?_⟩
  rw [main]
  cases sox
  · simp
  · simp

end SCI
